import Mathlib

/-!
Verification of the relational-to-graph loader (`app/etl.py`) and the graph
query engine (`app/main.py`) of the e-commerce recommendation repository.

The graph store state is embedded as explicit lists of nodes and edges.
Cypher `MERGE` on a node keyed by `id` is embedded as `upsertNode` (match by
key: overwrite the attributes of every matching element; otherwise append),
`MERGE` on an attribute-free edge as `mergeEdge` (append if absent), and
`CREATE` as plain append.  `MATCH (x:Label {id: $i})` clauses are embedded as
existence checks over the corresponding node list; a failing `MATCH` yields
zero rows, so the write steps after it are skipped, which the loader
definitions mirror with `if` guards.  Prices are embedded as `Rat` (the
source coerces them with `float`), ids as `Nat`, timestamps and dates as the
ISO strings the source hands to the store.
-/

namespace GraphTD

/-- Category node: `MERGE (cat:Category {id: $id}) SET cat.name = $name`. -/
structure Category where
  id : Nat
  name : String
  deriving DecidableEq, Repr

/-- Product node: `MERGE (p:Product {id: $id}) SET p.name, p.price`. -/
structure Product where
  id : Nat
  name : String
  price : Rat
  deriving DecidableEq, Repr

/-- Customer node: `MERGE (c:Customer {id: $id}) SET c.name, c.join_date`. -/
structure Customer where
  id : Nat
  name : String
  join_date : String
  deriving DecidableEq, Repr

/-- Order node: `MERGE (o:Order {id: $id}) SET o.ts`. -/
structure Order where
  id : Nat
  ts : String
  deriving DecidableEq, Repr

/-- Relationship type of a behavioral event edge, from the fixed
`event_type_map` in `etl.py` (default `INTERACTED`). -/
inductive EventType where
  | VIEWED
  | CLICKED
  | ADDED_TO_CART
  | INTERACTED
  deriving DecidableEq, Repr

/-- A `(p)-[:IN_CATEGORY]->(cat)` edge, stored by endpoint ids. -/
structure InCategoryEdge where
  product : Nat
  category : Nat
  deriving DecidableEq, Repr

/-- A `(c)-[:PLACED]->(o)` edge, stored by endpoint ids. -/
structure PlacedEdge where
  customer : Nat
  order : Nat
  deriving DecidableEq, Repr

/-- An `(o)-[:CONTAINS {quantity}]->(p)` edge, stored by endpoint ids. -/
structure ContainsEdge where
  order : Nat
  product : Nat
  quantity : Int
  deriving DecidableEq, Repr

/-- A behavioral event edge `(c)-[:VIEWED|CLICKED|ADDED_TO_CART|INTERACTED
{ts, event_id}]->(p)`, stored by endpoint ids. -/
structure EventEdge where
  relType : EventType
  customer : Nat
  product : Nat
  ts : String
  event_id : Nat
  deriving DecidableEq, Repr

/-- The whole graph-store state: the node lists and edge lists the loader
writes and the queries read. -/
structure Graph where
  categories : List Category
  products : List Product
  customers : List Customer
  orders : List Order
  inCategory : List InCategoryEdge
  placed : List PlacedEdge
  contains : List ContainsEdge
  events : List EventEdge
  deriving DecidableEq, Repr

/-- The empty graph store, the state before a first load. -/
def Graph.empty : Graph := ⟨[], [], [], [], [], [], [], []⟩

/-- Cypher `MERGE` on a key followed by `SET` of every other attribute: if
some element of `l` has the key of `node`, every such element is overwritten
with `node` (the `SET` overwrites all non-key attributes, and the key agrees);
otherwise `node` is appended. -/
def upsertNode {α κ : Type} [DecidableEq κ] (key : α → κ) (node : α) (l : List α) : List α :=
  if l.any (fun x => decide (key x = key node)) then
    l.map (fun x => if key x = key node then node else x)
  else
    l ++ [node]

/-- Cypher `MERGE` on a relationship pattern with no attributes: create the
edge only if it is absent. -/
def mergeEdge {α : Type} [DecidableEq α] (e : α) (l : List α) : List α :=
  if e ∈ l then l else l ++ [e]

/-- Fold of `upsertNode` over a batch of nodes, the shape of one loader pass
over one table. -/
def upsertAll {α κ : Type} [DecidableEq κ] (key : α → κ) (l : List α) (ns : List α) : List α :=
  ns.foldl (fun acc n => upsertNode key n acc) l

/-- Fold of `mergeEdge` over a batch of edges. -/
def mergeAll {α : Type} [DecidableEq α] (l : List α) (es : List α) : List α :=
  es.foldl (fun acc e => mergeEdge e acc) l

/-- Does the list hold an element with the given key value. -/
def hasId {α : Type} (key : α → Nat) (l : List α) (i : Nat) : Bool :=
  l.any (fun x => decide (key x = i))

/-- Is there a `Category` node with this id. -/
def categoryExists (g : Graph) (i : Nat) : Bool := hasId Category.id g.categories i

/-- Is there a `Product` node with this id. -/
def productExists (g : Graph) (i : Nat) : Bool := hasId Product.id g.products i

/-- Is there a `Customer` node with this id. -/
def customerExists (g : Graph) (i : Nat) : Bool := hasId Customer.id g.customers i

/-- Is there an `Order` node with this id. -/
def orderExists (g : Graph) (i : Nat) : Bool := hasId Order.id g.orders i

/-- One row of the relational `categories` table. -/
structure CategoryRow where
  id : Nat
  name : String
  deriving DecidableEq, Repr

/-- One row of the relational `products` table. -/
structure ProductRow where
  id : Nat
  name : String
  price : Rat
  category_id : Nat
  deriving DecidableEq, Repr

/-- One row of the relational `customers` table. -/
structure CustomerRow where
  id : Nat
  name : String
  join_date : String
  deriving DecidableEq, Repr

/-- One row of the relational `orders` table. -/
structure OrderRow where
  id : Nat
  customer_id : Nat
  ts : String
  deriving DecidableEq, Repr

/-- One row of the relational `order_items` table. -/
structure OrderItemRow where
  order_id : Nat
  product_id : Nat
  quantity : Int
  deriving DecidableEq, Repr

/-- One row of the relational `events` table. -/
structure EventRow where
  id : Nat
  customer_id : Nat
  product_id : Nat
  event_type : String
  ts : String
  deriving DecidableEq, Repr

/-- The six extracted relational tables the ETL reads. -/
structure Tables where
  categories : List CategoryRow
  products : List ProductRow
  customers : List CustomerRow
  orders : List OrderRow
  order_items : List OrderItemRow
  events : List EventRow
  deriving DecidableEq, Repr

/-- Loader step for one `categories` row:
`MERGE (cat:Category {id: $id}) SET cat.name = $name`. -/
def loadCategory (g : Graph) (r : CategoryRow) : Graph :=
  { g with categories := upsertNode Category.id ⟨r.id, r.name⟩ g.categories }

/-- Loader step for one `products` row: upsert the node, then
`MATCH (cat:Category {id: $category_id}) MERGE (p)-[:IN_CATEGORY]->(cat)`;
if the category is missing the `MATCH` yields no row and the edge step is
silently skipped (the node write before the `WITH` still happened). -/
def loadProduct (g : Graph) (r : ProductRow) : Graph :=
  let g1 := { g with products := upsertNode Product.id ⟨r.id, r.name, r.price⟩ g.products }
  if categoryExists g1 r.category_id then
    { g1 with inCategory := mergeEdge ⟨r.id, r.category_id⟩ g1.inCategory }
  else g1

/-- Loader step for one `customers` row:
`MERGE (c:Customer {id: $id}) SET c.name, c.join_date`. -/
def loadCustomer (g : Graph) (r : CustomerRow) : Graph :=
  { g with customers := upsertNode Customer.id ⟨r.id, r.name, r.join_date⟩ g.customers }

/-- Loader step for one `orders` row: upsert the node, then
`MATCH (c:Customer {id: $customer_id}) MERGE (c)-[:PLACED]->(o)`, skipped
when the customer is missing. -/
def loadOrder (g : Graph) (r : OrderRow) : Graph :=
  let g1 := { g with orders := upsertNode Order.id ⟨r.id, r.ts⟩ g.orders }
  if customerExists g1 r.customer_id then
    { g1 with placed := mergeEdge ⟨r.customer_id, r.id⟩ g1.placed }
  else g1

/-- Loader step for one `order_items` row: `MATCH` both endpoints (the whole
write is skipped if either is missing), then
`MERGE (o)-[r:CONTAINS]->(p) SET r.quantity = $quantity` — an upsert keyed by
the (order, product) endpoint pair, overwriting the quantity. -/
def loadOrderItem (g : Graph) (r : OrderItemRow) : Graph :=
  if orderExists g r.order_id && productExists g r.product_id then
    { g with contains :=
        upsertNode (fun e => (e.order, e.product)) ⟨r.order_id, r.product_id, r.quantity⟩ g.contains }
  else g

/-- The fixed `event_type_map` of `etl.py`, with `.get`-default
`INTERACTED` for any unmapped string. -/
def mapEventType (s : String) : EventType :=
  if s = "view" then .VIEWED
  else if s = "click" then .CLICKED
  else if s = "add_to_cart" then .ADDED_TO_CART
  else .INTERACTED

/-- Loader step for one `events` row: `MATCH` both endpoints, then `CREATE`
(never merge) a new edge of the mapped type carrying the timestamp and the
event row id. -/
def loadEvent (g : Graph) (r : EventRow) : Graph :=
  if customerExists g r.customer_id && productExists g r.product_id then
    { g with events := g.events ++ [⟨mapEventType r.event_type, r.customer_id, r.product_id, r.ts, r.id⟩] }
  else g

/-- One loader pass over the `categories` table, row by row. -/
def loadCategories (g : Graph) (rows : List CategoryRow) : Graph := rows.foldl loadCategory g

/-- One loader pass over the `products` table, row by row. -/
def loadProducts (g : Graph) (rows : List ProductRow) : Graph := rows.foldl loadProduct g

/-- One loader pass over the `customers` table, row by row. -/
def loadCustomers (g : Graph) (rows : List CustomerRow) : Graph := rows.foldl loadCustomer g

/-- One loader pass over the `orders` table, row by row. -/
def loadOrders (g : Graph) (rows : List OrderRow) : Graph := rows.foldl loadOrder g

/-- One loader pass over the `order_items` table, row by row. -/
def loadOrderItems (g : Graph) (rows : List OrderItemRow) : Graph := rows.foldl loadOrderItem g

/-- One loader pass over the `events` table, row by row. -/
def loadEvents (g : Graph) (rows : List EventRow) : Graph := rows.foldl loadEvent g

/-- The whole ETL load (`etl()` in `etl.py`): the six tables in the fixed
dependency order categories, products, customers, orders, order items,
events. -/
def etl (g : Graph) (t : Tables) : Graph :=
  loadEvents
    (loadOrderItems
      (loadOrders
        (loadCustomers
          (loadProducts
            (loadCategories g t.categories)
            t.products)
          t.customers)
        t.orders)
      t.order_items)
    t.events

/-! ## Query engine (`app/main.py`)

Each query is embedded directly from its Cypher text.  A `MATCH` over a node
pattern ranges over the node list; `count(...)` aggregations are embedded as
lengths of the matching row lists; `ORDER BY x DESC, p.price ASC` is embedded
as a stable `mergeSort` under the corresponding total preorder (Neo4j leaves
the relative order of full ties unspecified; the stable sort picks one
admissible order); `LIMIT $limit` is `List.take`. -/

/-- The ranking preorder shared by all four recommendation queries:
`ORDER BY <score> DESC, <price> ASC` — `a` may come before `b` when `a` has
the larger score, or equal scores and `a.price ≤ b.price`. -/
def rankLE (a b : Product × Nat) : Prop :=
  b.2 < a.2 ∨ (a.2 = b.2 ∧ a.1.price ≤ b.1.price)

instance rankLEDec (a b : Product × Nat) : Decidable (rankLE a b) := by
  unfold rankLE; infer_instance

/-- Boolean form of `rankLE`, handed to `mergeSort`. -/
def recLE (a b : Product × Nat) : Bool := decide (rankLE a b)

/-- Neighbor ranking in the collaborative query: `ORDER BY common_products
DESC` only. -/
def nbrLE (a b : Customer × Nat) : Bool := decide (b.2 ≤ a.2)

/-- Did this customer purchase this product:
`(c {id: cid})-[:PLACED]->(o:Order)-[:CONTAINS]->(p {id: pid})` has a match. -/
def purchasedBy (g : Graph) (cid pid : Nat) : Prop :=
  ∃ pl ∈ g.placed, pl.customer = cid ∧ orderExists g pl.order = true ∧
    ∃ e ∈ g.contains, e.order = pl.order ∧ e.product = pid

instance purchasedByDec (g : Graph) (cid pid : Nat) : Decidable (purchasedBy g cid pid) := by
  unfold purchasedBy; infer_instance

/-- Number of `CONTAINS` edges from an existing `Order` node into the product
with this id: the value of `count(o)` for one product group in
`MATCH (p:Product)<-[:CONTAINS]-(o:Order) WITH p, count(o)`. -/
def containsCount (g : Graph) (pid : Nat) : Nat :=
  (g.contains.filter (fun e => decide (e.product = pid ∧ orderExists g e.order = true))).length

/-- The grouped rows of the popular-products query before ordering: one row
per `Product` node with at least one `CONTAINS` edge from an `Order` node
(a plain `MATCH` keeps only products with a match), scored by `count(o)`. -/
def popularRows (g : Graph) : List (Product × Nat) :=
  (g.products.map (fun p => (p, containsCount g p.id))).filter (fun x => decide (x.2 ≠ 0))

/-- The `/recommendations/popular` query: rows ordered by order count
descending then price ascending, truncated to `limit`. -/
def popular_products (g : Graph) (limit : Nat) : List (Product × Nat) :=
  ((popularRows g).mergeSort recLE).take limit

/-- Number of pattern rows of
`MATCH (p {id: pid})-[:IN_CATEGORY]->(cat:Category)
 MATCH (rec {id: rid})-[:IN_CATEGORY]->(cat)`: pairs of `IN_CATEGORY` edges
from `pid` and from `rid` into the same existing category node. -/
def sharedCatPairs (g : Graph) (pid rid : Nat) : Nat :=
  ((g.inCategory.filter (fun e => decide (e.product = pid ∧ categoryExists g e.category = true))).map
    (fun e1 => (g.inCategory.filter (fun e2 => decide (e2.product = rid ∧ e2.category = e1.category))).length)).sum

/-- The grouped rows of the content-based query: candidates are the other
`Product` nodes sharing a category with the input product, and the
`OPTIONAL MATCH (rec)<-[:CONTAINS]-(o:Order)` makes `count(o)` the number of
(shared-category row, `CONTAINS` edge) combinations — `0` when the candidate
is in no order, without dropping the candidate. -/
def contentRows (g : Graph) (pid : Nat) : List (Product × Nat) :=
  if productExists g pid then
    (g.products.filter (fun rec => decide (rec.id ≠ pid ∧ 0 < sharedCatPairs g pid rec.id))).map
      (fun rec => (rec, sharedCatPairs g pid rec.id * containsCount g rec.id))
  else []

/-- The `/recommendations/content/{product_id}` query. -/
def content_based_recommendations (g : Graph) (pid : Nat) (limit : Nat) : List (Product × Nat) :=
  ((contentRows g pid).mergeSort recLE).take limit

/-- Number of pattern rows of
`MATCH (p {id: pid})<-[:CONTAINS]-(o:Order)-[:CONTAINS]->(rec {id: rid})`:
pairs of `CONTAINS` edges sharing the order, the first into `pid` from an
existing `Order` node, the second into `rid`. -/
def coPurchaseCount (g : Graph) (pid rid : Nat) : Nat :=
  ((g.contains.filter (fun e => decide (e.product = pid ∧ orderExists g e.order = true))).map
    (fun e1 => (g.contains.filter (fun e2 => decide (e2.order = e1.order ∧ e2.product = rid))).length)).sum

/-- The grouped rows of the co-purchase query: other `Product` nodes sharing
at least one order with the input product, scored by `count(o)`. -/
def coPurchaseRows (g : Graph) (pid : Nat) : List (Product × Nat) :=
  if productExists g pid then
    (g.products.filter (fun rec => decide (rec.id ≠ pid ∧ 0 < coPurchaseCount g pid rec.id))).map
      (fun rec => (rec, coPurchaseCount g pid rec.id))
  else []

/-- The `/recommendations/co-purchase/{product_id}` query. -/
def co_purchase_recommendations (g : Graph) (pid : Nat) (limit : Nat) : List (Product × Nat) :=
  ((coPurchaseRows g pid).mergeSort recLE).take limit

/-- The `collect(DISTINCT p)` set of the collaborative query: the distinct
`Product` nodes the customer purchased — empty when the customer node does
not exist (the first `MATCH` then has no rows). -/
def customerProducts (g : Graph) (cid : Nat) : List Product :=
  if customerExists g cid then g.products.filter (fun p => decide (purchasedBy g cid p.id)) else []

/-- The `count(DISTINCT p2)` overlap of one candidate neighbor with the
customer's purchased set. -/
def overlapCount (g : Graph) (cps : List Product) (oid : Nat) : Nat :=
  (cps.filter (fun p => decide (purchasedBy g oid p.id))).length

/-- The grouped neighbor rows of the collaborative query: other `Customer`
nodes that purchased at least one product of the customer's set, with their
overlap counts. -/
def neighborRows (g : Graph) (cid : Nat) : List (Customer × Nat) :=
  (g.customers.filter (fun other => decide (other.id ≠ cid ∧
      0 < overlapCount g (customerProducts g cid) other.id))).map
    (fun other => (other, overlapCount g (customerProducts g cid) other.id))

/-- The neighbor selection of the collaborative query:
`ORDER BY common_products DESC LIMIT 10` — the hard-coded 10-neighbor
cutoff. -/
def neighbors (g : Graph) (cid : Nat) : List Customer :=
  (((neighborRows g cid).mergeSort nbrLE).take 10).map Prod.fst

/-- The `count(DISTINCT other)` popularity of one candidate product among the
selected neighbors. -/
def collabPopularity (g : Graph) (nbrs : List Customer) (pid : Nat) : Nat :=
  ((nbrs.filter (fun n => decide (purchasedBy g n.id pid))).dedup).length

/-- The grouped candidate rows of the collaborative query: products purchased
by at least one neighbor and not in the customer's own purchased set
(`WHERE NOT rec IN customer_products`). -/
def collabRows (g : Graph) (cid : Nat) : List (Product × Nat) :=
  (g.products.filter (fun rec => decide (rec ∉ customerProducts g cid ∧
      ∃ n ∈ neighbors g cid, purchasedBy g n.id rec.id))).map
    (fun rec => (rec, collabPopularity g (neighbors g cid) rec.id))

/-- The `/recommendations/collaborative/{customer_id}` query. -/
def collaborative_recommendations (g : Graph) (cid : Nat) (limit : Nat) : List (Product × Nat) :=
  ((collabRows g cid).mergeSort recLE).take limit

/-! ## Generic lemmas about keyed upserts and edge merges -/

section Upsert

variable {α κ : Type} [DecidableEq κ] (key : α → κ)

theorem any_key_eq (l : List α) (k : κ) :
    (l.any (fun x => decide (key x = k)) = true) ↔ k ∈ l.map key := by
  simp only [List.any_eq_true, List.mem_map, decide_eq_true_eq]

theorem map_key_replace (n : α) (l : List α) :
    (l.map (fun x => if key x = key n then n else x)).map key = l.map key := by
  induction l with
  | nil => rfl
  | cons a t ih =>
    simp only [List.map_cons, ih]
    by_cases ha : key a = key n
    · rw [if_pos ha, ha]
    · rw [if_neg ha]

theorem find?_replace (n : α) (l : List α) (k : κ) :
    (l.map (fun x => if key x = key n then n else x)).find? (fun x => decide (key x = k)) =
      if k = key n then
        (if l.any (fun x => decide (key x = key n)) then some n else none)
      else l.find? (fun x => decide (key x = k)) := by
  induction l with
  | nil => simp
  | cons a t ih =>
    by_cases ha : key a = key n
    · by_cases hk : k = key n
      · simp [ha, hk]
      · have hne : ¬key n = k := fun h => hk h.symm
        simp [ha, hk, ih, hne]
    · by_cases hak : key a = k
      · have hne : ¬k = key n := fun h => ha (hak.trans h)
        simp [ha, hak, hne]
      · simp [ha, hak, ih]

theorem upsertNode_map_key (n : α) (l : List α) :
    (upsertNode key n l).map key =
      if key n ∈ l.map key then l.map key else l.map key ++ [key n] := by
  unfold upsertNode
  by_cases h : key n ∈ l.map key
  · rw [if_pos ((any_key_eq key l (key n)).mpr h), if_pos h, map_key_replace]
  · rw [if_neg (fun hc => h ((any_key_eq key l (key n)).mp hc)), if_neg h, List.map_append]
    rfl

theorem upsertNode_nodup_key (n : α) (l : List α) (h : (l.map key).Nodup) :
    ((upsertNode key n l).map key).Nodup := by
  rw [upsertNode_map_key]
  split
  · exact h
  · next hmem =>
    rw [List.nodup_append]
    exact ⟨h, List.nodup_singleton _, by simpa using fun h' => hmem h'⟩

theorem find?_upsertNode (n : α) (l : List α) (k : κ) :
    (upsertNode key n l).find? (fun x => decide (key x = k)) =
      if k = key n then some n else l.find? (fun x => decide (key x = k)) := by
  unfold upsertNode
  by_cases h : l.any (fun x => decide (key x = key n)) = true
  · rw [if_pos h, find?_replace, h]
    split <;> simp
  · rw [if_neg h, List.find?_append]
    by_cases hk : k = key n
    · subst hk
      have hnone : l.find? (fun x => decide (key x = key n)) = none := by
        rw [List.find?_eq_none]
        intro x hx hpx
        exact h (List.any_eq_true.mpr ⟨x, hx, hpx⟩)
      rw [hnone, Option.none_or, if_pos rfl]
      simp
    · have hne : ¬key n = k := fun h' => hk h'.symm
      have hsing : List.find? (fun x => decide (key x = k)) [n] = none := by simp [hne]
      rw [hsing, Option.or_none, if_neg hk]

theorem find?_upsertAll (ns : List α) (l : List α) (k : κ) :
    (upsertAll key l ns).find? (fun x => decide (key x = k)) =
      (ns.reverse.find? (fun x => decide (key x = k))).or
        (l.find? (fun x => decide (key x = k))) := by
  induction ns generalizing l with
  | nil => simp [upsertAll]
  | cons n t ih =>
    show (upsertAll key (upsertNode key n l) t).find? _ = _
    rw [ih, find?_upsertNode, List.reverse_cons, List.find?_append]
    by_cases hrev : (t.reverse.find? (fun x => decide (key x = k))) = none
    · rw [hrev, Option.none_or, Option.none_or]
      by_cases hk : k = key n
      · rw [if_pos hk, List.find?_cons_of_pos _ (by simp [hk])]
        rfl
      · rw [if_neg hk]
        have : ([n].find? (fun x => decide (key x = k))) = none :=
          List.find?_cons_of_neg _ (by simp; exact fun h' => hk h'.symm)
        rw [this]
        rfl
    · rcases Option.ne_none_iff_exists'.mp hrev with ⟨x, hx⟩
      rw [hx]
      rfl

theorem upsertAll_map_key_mono (ns : List α) (l : List α) (k : κ) (h : k ∈ l.map key) :
    k ∈ (upsertAll key l ns).map key := by
  induction ns generalizing l with
  | nil => exact h
  | cons n t ih =>
    refine ih _ ?_
    rw [upsertNode_map_key]
    split
    · exact h
    · exact List.mem_append_left _ h

theorem upsertAll_map_key_cover (ns : List α) (l : List α) (n : α) (h : n ∈ ns) :
    key n ∈ (upsertAll key l ns).map key := by
  induction ns generalizing l with
  | nil => cases h
  | cons m t ih =>
    rcases List.mem_cons.mp h with rfl | h'
    · refine upsertAll_map_key_mono key t _ _ ?_
      rw [upsertNode_map_key]
      split
      · assumption
      · exact List.mem_append_right _ (List.mem_singleton.mpr rfl)
    · exact ih _ h'

theorem upsertAll_map_key_stable (ns : List α) (l : List α)
    (h : ∀ n ∈ ns, key n ∈ l.map key) :
    (upsertAll key l ns).map key = l.map key := by
  induction ns generalizing l with
  | nil => rfl
  | cons n t ih =>
    show (upsertAll key (upsertNode key n l) t).map key = _
    have hkeys : (upsertNode key n l).map key = l.map key := by
      rw [upsertNode_map_key, if_pos (h n (List.mem_cons_self n t))]
    rw [ih _ (fun m hm => hkeys ▸ h m (List.mem_cons_of_mem _ hm)), hkeys]

theorem upsertAll_nodup_key (ns : List α) (l : List α) (h : (l.map key).Nodup) :
    ((upsertAll key l ns).map key).Nodup := by
  induction ns generalizing l with
  | nil => exact h
  | cons n t ih => exact ih _ (upsertNode_nodup_key key n l h)

theorem eq_of_map_key_eq_of_find?_eq (l1 l2 : List α)
    (hkeys : l1.map key = l2.map key) (hnd : (l1.map key).Nodup)
    (hfind : ∀ k, l1.find? (fun x => decide (key x = k)) = l2.find? (fun x => decide (key x = k))) :
    l1 = l2 := by
  induction l1 generalizing l2 with
  | nil => cases l2 with
    | nil => rfl
    | cons b t2 => exact absurd hkeys (by simp)
  | cons a t1 ih =>
    cases l2 with
    | nil => exact absurd hkeys (by simp)
    | cons b t2 =>
      simp only [List.map_cons, List.cons.injEq] at hkeys
      obtain ⟨hab, htl⟩ := hkeys
      have hhead : a = b := by
        have h1 := hfind (key a)
        rw [List.find?_cons_of_pos _ (by simp), List.find?_cons_of_pos _ (by simp [hab])] at h1
        exact Option.some.inj h1
      subst hhead
      simp only [List.map_cons, List.nodup_cons] at hnd
      refine congrArg _ (ih t2 htl hnd.2 (fun k => ?_))
      by_cases hk : key a = k
      · have h1 : t1.find? (fun x => decide (key x = k)) = none := by
        -- key a not among the tail keys
          rw [List.find?_eq_none]
          intro x hx hpx
          exact hnd.1 (hk ▸ (decide_eq_true_eq.mp hpx) ▸ List.mem_map_of_mem key hx)
        have h2 : t2.find? (fun x => decide (key x = k)) = none := by
          rw [List.find?_eq_none]
          intro x hx hpx
          refine hnd.1 ?_
          rw [htl]
          exact hk ▸ (decide_eq_true_eq.mp hpx) ▸ List.mem_map_of_mem key hx
        rw [h1, h2]
      · have h1 := hfind k
        rwa [List.find?_cons_of_neg _ (by simpa using hk),
          List.find?_cons_of_neg _ (by simpa using hk)] at h1

theorem upsertAll_idem (ns : List α) (l : List α) (h : (l.map key).Nodup) :
    upsertAll key (upsertAll key l ns) ns = upsertAll key l ns := by
  refine eq_of_map_key_eq_of_find?_eq key _ _ ?_ ?_ ?_
  · exact upsertAll_map_key_stable key ns _
      (fun n hn => upsertAll_map_key_cover key ns l n hn)
  · exact upsertAll_nodup_key key ns _ (upsertAll_nodup_key key ns l h)
  · intro k
    rw [find?_upsertAll, find?_upsertAll]
    cases hrev : ns.reverse.find? (fun x => decide (key x = k)) with
    | none => rw [Option.none_or]
    | some x => rfl

end Upsert

section MergeEdges

variable {α : Type} [DecidableEq α]

theorem mem_mergeEdge_of_mem (e a : α) (l : List α) (h : a ∈ l) : a ∈ mergeEdge e l := by
  unfold mergeEdge
  split
  · exact h
  · exact List.mem_append_left _ h

theorem mem_mergeEdge_self (e : α) (l : List α) : e ∈ mergeEdge e l := by
  unfold mergeEdge
  split
  · assumption
  · exact List.mem_append_right _ (List.mem_singleton.mpr rfl)

theorem mem_mergeAll_of_mem (es : List α) (l : List α) (a : α) (h : a ∈ l) :
    a ∈ mergeAll l es := by
  induction es generalizing l with
  | nil => exact h
  | cons e t ih => exact ih _ (mem_mergeEdge_of_mem e a l h)

theorem mem_mergeAll_cover (es : List α) (l : List α) (e : α) (h : e ∈ es) :
    e ∈ mergeAll l es := by
  induction es generalizing l with
  | nil => cases h
  | cons f t ih =>
    rcases List.mem_cons.mp h with rfl | h'
    · exact mem_mergeAll_of_mem t _ _ (mem_mergeEdge_self e l)
    · exact ih _ h'

theorem mergeAll_noop (es : List α) (l : List α) (h : ∀ e ∈ es, e ∈ l) :
    mergeAll l es = l := by
  induction es generalizing l with
  | nil => rfl
  | cons e t ih =>
    show mergeAll (mergeEdge e l) t = l
    have he : mergeEdge e l = l := by
      unfold mergeEdge
      exact if_pos (h e (List.mem_cons_self e t))
    rw [he]
    exact ih _ (fun f hf => h f (List.mem_cons_of_mem _ hf))

theorem mergeAll_idem (es : List α) (l : List α) :
    mergeAll (mergeAll l es) es = mergeAll l es :=
  mergeAll_noop es _ (fun e he => mem_mergeAll_cover es l e he)

end MergeEdges

/-! ## Closed forms of the six loader passes -/

theorem loadCategories_eq (rows : List CategoryRow) : ∀ g : Graph,
    loadCategories g rows =
      { g with categories :=
          upsertAll Category.id g.categories (rows.map fun r => ⟨r.id, r.name⟩) } := by
  induction rows with
  | nil => intro g; rfl
  | cons r t ih =>
    intro g
    show loadCategories (loadCategory g r) t = _
    rw [ih]
    rfl

theorem loadProducts_eq (rows : List ProductRow) : ∀ g : Graph,
    loadProducts g rows =
      { g with
          products := upsertAll Product.id g.products (rows.map fun r => ⟨r.id, r.name, r.price⟩),
          inCategory := mergeAll g.inCategory
            ((rows.filter fun r => hasId Category.id g.categories r.category_id).map
              fun r => ⟨r.id, r.category_id⟩) } := by
  induction rows with
  | nil => intro g; rfl
  | cons r t ih =>
    intro g
    show loadProducts (loadProduct g r) t = _
    by_cases hc : hasId Category.id g.categories r.category_id = true
    · have hstep : loadProduct g r =
          { g with
              products := upsertNode Product.id ⟨r.id, r.name, r.price⟩ g.products,
              inCategory := mergeEdge ⟨r.id, r.category_id⟩ g.inCategory } := by
        simp only [loadProduct, categoryExists]
        rw [if_pos hc]
      have hfilter : List.filter (fun r => hasId Category.id g.categories r.category_id) (r :: t)
          = r :: List.filter (fun r => hasId Category.id g.categories r.category_id) t :=
        List.filter_cons_of_pos hc
      rw [hstep, ih, hfilter]
      rfl
    · have hstep : loadProduct g r =
          { g with products := upsertNode Product.id ⟨r.id, r.name, r.price⟩ g.products } := by
        simp only [loadProduct, categoryExists]
        rw [if_neg hc]
      have hfilter : List.filter (fun r => hasId Category.id g.categories r.category_id) (r :: t)
          = List.filter (fun r => hasId Category.id g.categories r.category_id) t :=
        List.filter_cons_of_neg (by simpa using hc)
      rw [hstep, ih, hfilter]
      rfl

theorem loadCustomers_eq (rows : List CustomerRow) : ∀ g : Graph,
    loadCustomers g rows =
      { g with customers :=
          upsertAll Customer.id g.customers (rows.map fun r => ⟨r.id, r.name, r.join_date⟩) } := by
  induction rows with
  | nil => intro g; rfl
  | cons r t ih =>
    intro g
    show loadCustomers (loadCustomer g r) t = _
    rw [ih]
    rfl

theorem loadOrders_eq (rows : List OrderRow) : ∀ g : Graph,
    loadOrders g rows =
      { g with
          orders := upsertAll Order.id g.orders (rows.map fun r => ⟨r.id, r.ts⟩),
          placed := mergeAll g.placed
            ((rows.filter fun r => hasId Customer.id g.customers r.customer_id).map
              fun r => ⟨r.customer_id, r.id⟩) } := by
  induction rows with
  | nil => intro g; rfl
  | cons r t ih =>
    intro g
    show loadOrders (loadOrder g r) t = _
    by_cases hc : hasId Customer.id g.customers r.customer_id = true
    · have hstep : loadOrder g r =
          { g with
              orders := upsertNode Order.id ⟨r.id, r.ts⟩ g.orders,
              placed := mergeEdge ⟨r.customer_id, r.id⟩ g.placed } := by
        simp only [loadOrder, customerExists]
        rw [if_pos hc]
      have hfilter : List.filter (fun r => hasId Customer.id g.customers r.customer_id) (r :: t)
          = r :: List.filter (fun r => hasId Customer.id g.customers r.customer_id) t :=
        List.filter_cons_of_pos hc
      rw [hstep, ih, hfilter]
      rfl
    · have hstep : loadOrder g r =
          { g with orders := upsertNode Order.id ⟨r.id, r.ts⟩ g.orders } := by
        simp only [loadOrder, customerExists]
        rw [if_neg hc]
      have hfilter : List.filter (fun r => hasId Customer.id g.customers r.customer_id) (r :: t)
          = List.filter (fun r => hasId Customer.id g.customers r.customer_id) t :=
        List.filter_cons_of_neg (by simpa using hc)
      rw [hstep, ih, hfilter]
      rfl

theorem loadOrderItems_eq (rows : List OrderItemRow) : ∀ g : Graph,
    loadOrderItems g rows =
      { g with contains := upsertAll (fun e => (e.order, e.product)) g.contains ((rows.filter
          fun r => hasId Order.id g.orders r.order_id && hasId Product.id g.products r.product_id).map
            fun r => ⟨r.order_id, r.product_id, r.quantity⟩) } := by
  induction rows with
  | nil => intro g; rfl
  | cons r t ih =>
    intro g
    show loadOrderItems (loadOrderItem g r) t = _
    by_cases hc : (hasId Order.id g.orders r.order_id && hasId Product.id g.products r.product_id) = true
    · have hstep : loadOrderItem g r =
          { g with contains := (upsertNode (fun e => (e.order, e.product))
              ⟨r.order_id, r.product_id, r.quantity⟩ g.contains) } := by
        simp only [loadOrderItem, orderExists, productExists]
        rw [if_pos hc]
      have hfilter : List.filter
            (fun r => hasId Order.id g.orders r.order_id && hasId Product.id g.products r.product_id) (r :: t)
          = r :: List.filter
            (fun r => hasId Order.id g.orders r.order_id && hasId Product.id g.products r.product_id) t :=
        List.filter_cons_of_pos hc
      rw [hstep, ih, hfilter]
      rfl
    · have hstep : loadOrderItem g r = g := by
        simp only [loadOrderItem, orderExists, productExists]
        rw [if_neg hc]
      have hfilter : List.filter
            (fun r => hasId Order.id g.orders r.order_id && hasId Product.id g.products r.product_id) (r :: t)
          = List.filter
            (fun r => hasId Order.id g.orders r.order_id && hasId Product.id g.products r.product_id) t :=
        List.filter_cons_of_neg (by simpa using hc)
      rw [hstep, ih, hfilter]

theorem loadEvents_eq (rows : List EventRow) : ∀ g : Graph,
    loadEvents g rows =
      { g with events := g.events ++ ((rows.filter
          fun r => hasId Customer.id g.customers r.customer_id && hasId Product.id g.products r.product_id).map
            fun r => ⟨mapEventType r.event_type, r.customer_id, r.product_id, r.ts, r.id⟩) } := by
  induction rows with
  | nil => intro g; simp [loadEvents]
  | cons r t ih =>
    intro g
    show loadEvents (loadEvent g r) t = _
    by_cases hc : (hasId Customer.id g.customers r.customer_id && hasId Product.id g.products r.product_id) = true
    · have hstep : loadEvent g r =
          { g with events := g.events ++
              [⟨mapEventType r.event_type, r.customer_id, r.product_id, r.ts, r.id⟩] } := by
        simp only [loadEvent, customerExists, productExists]
        rw [if_pos hc]
      have hfilter : List.filter
            (fun r => hasId Customer.id g.customers r.customer_id && hasId Product.id g.products r.product_id)
            (r :: t)
          = r :: List.filter
            (fun r => hasId Customer.id g.customers r.customer_id && hasId Product.id g.products r.product_id) t :=
        List.filter_cons_of_pos hc
      rw [hstep, ih, hfilter]
      simp
    · have hstep : loadEvent g r = g := by
        simp only [loadEvent, customerExists, productExists]
        rw [if_neg hc]
      have hfilter : List.filter
            (fun r => hasId Customer.id g.customers r.customer_id && hasId Product.id g.products r.product_id)
            (r :: t)
          = List.filter
            (fun r => hasId Customer.id g.customers r.customer_id && hasId Product.id g.products r.product_id) t :=
        List.filter_cons_of_neg (by simpa using hc)
      rw [hstep, ih, hfilter]


/-- The closed form of one full load into the empty graph: upserts of the
node tables in dependency order, with each relationship batch filtered by
the endpoint-existence checks evaluated against the already-loaded nodes. -/
def etlClosed (t : Tables) : Graph :=
  let C := upsertAll Category.id [] (t.categories.map fun r => ⟨r.id, r.name⟩)
  let P := upsertAll Product.id [] (t.products.map fun r => ⟨r.id, r.name, r.price⟩)
  let CU := upsertAll Customer.id [] (t.customers.map fun r => ⟨r.id, r.name, r.join_date⟩)
  let O := upsertAll Order.id [] (t.orders.map fun r => ⟨r.id, r.ts⟩)
  { categories := C
    products := P
    customers := CU
    orders := O
    inCategory := mergeAll []
      ((t.products.filter fun r => hasId Category.id C r.category_id).map
        fun r => ⟨r.id, r.category_id⟩)
    placed := mergeAll []
      ((t.orders.filter fun r => hasId Customer.id CU r.customer_id).map
        fun r => ⟨r.customer_id, r.id⟩)
    contains := (upsertAll (fun e => (e.order, e.product)) [] ((t.order_items.filter
        fun r => hasId Order.id O r.order_id && hasId Product.id P r.product_id).map
          fun r => ⟨r.order_id, r.product_id, r.quantity⟩))
    events := ((t.events.filter
        fun r => hasId Customer.id CU r.customer_id && hasId Product.id P r.product_id).map
          fun r => ⟨mapEventType r.event_type, r.customer_id, r.product_id, r.ts, r.id⟩) }

theorem etl_empty_eq (t : Tables) : etl Graph.empty t = etlClosed t := by
  unfold etl etlClosed
  rw [loadCategories_eq, loadProducts_eq, loadCustomers_eq, loadOrders_eq, loadOrderItems_eq,
    loadEvents_eq]
  rfl

theorem etl_twice (t : Tables) :
    etl (etl Graph.empty t) t =
      { etl Graph.empty t with
          events := (etl Graph.empty t).events ++ (etl Graph.empty t).events } := by
  rw [etl_empty_eq]
  unfold etl
  rw [loadCategories_eq, loadProducts_eq, loadCustomers_eq, loadOrders_eq, loadOrderItems_eq,
    loadEvents_eq]
  unfold etlClosed
  dsimp only
  rw [upsertAll_idem Category.id (t.categories.map fun r => ⟨r.id, r.name⟩) [] (by simp)]
  rw [upsertAll_idem Product.id (t.products.map fun r => ⟨r.id, r.name, r.price⟩) [] (by simp)]
  rw [upsertAll_idem Customer.id (t.customers.map fun r => ⟨r.id, r.name, r.join_date⟩) [] (by simp)]
  rw [upsertAll_idem Order.id (t.orders.map fun r => ⟨r.id, r.ts⟩) [] (by simp)]
  rw [mergeAll_idem, mergeAll_idem]
  rw [upsertAll_idem (fun e : ContainsEdge => (e.order, e.product)) _ [] (by simp)]

/-- One record of the customer-journey query. -/
structure Journey where
  customer_name : String
  views : Nat
  clicks : Nat
  cart_additions : Nat
  purchases : Nat
  deriving DecidableEq, Repr

/-- The `count(DISTINCT viewed)` aggregate for one event relationship type:
the number of `Product` nodes reached from the customer by at least one edge
of that type (an `OPTIONAL MATCH` with no match contributes `null`, which
the distinct count ignores). -/
def distinctEventProducts (g : Graph) (cid : Nat) (t : EventType) : Nat :=
  (g.products.filter
    (fun p => decide (∃ e ∈ g.events, e.relType = t ∧ e.customer = cid ∧ e.product = p.id))).length

/-- The record rows of the customer-journey query: one per `Customer` node
matching the id (grouped on `c.name`), with the four independent distinct
counts; no rows when the customer does not exist. -/
def journeyRows (g : Graph) (cid : Nat) : List Journey :=
  (g.customers.filter (fun c => decide (c.id = cid))).map (fun c =>
    { customer_name := c.name
      views := distinctEventProducts g cid .VIEWED
      clicks := distinctEventProducts g cid .CLICKED
      cart_additions := distinctEventProducts g cid .ADDED_TO_CART
      purchases := (g.products.filter (fun p => decide (purchasedBy g cid p.id))).length })

/-- The message standing for the `TypeError` the endpoint raises when
`result.single()` finds no record and `dict(None)` is evaluated. -/
def noRecordError : String := "result.single() returned no record; dict(None) raises TypeError"

/-- The `/analytics/customer-journey/{customer_id}` endpoint:
`dict(result.single())` — the first record when one exists, otherwise the
raised error (embedded as `Except.error`). -/
def customer_journey (g : Graph) (cid : Nat) : Except String Journey :=
  match journeyRows g cid with
  | [] => .error noRecordError
  | r :: _ => .ok r

/-- One record of the stats query. -/
structure Stats where
  customers : Nat
  products : Nat
  orders : Nat
  categories : Nat
  relationships : Nat
  deriving DecidableEq, Repr

/-- Total number of relationships of any type, the value of
`MATCH ()-[r]->() ... count(r)`. -/
def relationshipCount (g : Graph) : Nat :=
  g.inCategory.length + g.placed.length + g.contains.length + g.events.length

/-- The record rows of the stats query.  The first
`MATCH (c:Customer) WITH count(c) as customers` aggregates with no grouping
key, so it yields one row even over zero matches; every later stage
`MATCH (x) WITH <keys>, count(x)` aggregates with grouping keys, so when its
`MATCH` finds nothing the stage has zero input rows and yields zero rows,
wiping out the record.  Hence the record survives only when products, orders,
categories, and relationships are all nonzero. -/
def statsRows (g : Graph) : List Stats :=
  if g.products.length = 0 then []
  else if g.orders.length = 0 then []
  else if g.categories.length = 0 then []
  else if relationshipCount g = 0 then []
  else [⟨g.customers.length, g.products.length, g.orders.length, g.categories.length,
          relationshipCount g⟩]

/-- The `/stats` endpoint: `dict(result.single())`, as in `customer_journey`. -/
def get_stats (g : Graph) : Except String Stats :=
  match statsRows g with
  | [] => .error noRecordError
  | r :: _ => .ok r

/-! ## Ranking order facts shared by the four recommendation queries -/

theorem recLE_trans : ∀ a b c : Product × Nat, recLE a b → recLE b c → recLE a c := by
  intro a b c hab hbc
  simp only [recLE, rankLE, decide_eq_true_eq] at hab hbc ⊢
  rcases hab with h1 | ⟨h1, h2⟩ <;> rcases hbc with h3 | ⟨h3, h4⟩
  · exact Or.inl (by omega)
  · exact Or.inl (by omega)
  · exact Or.inl (by omega)
  · exact Or.inr ⟨by omega, le_trans h2 h4⟩

theorem recLE_total : ∀ a b : Product × Nat, recLE a b || recLE b a := by
  intro a b
  simp only [recLE, rankLE, Bool.or_eq_true, decide_eq_true_eq]
  rcases Nat.lt_trichotomy a.2 b.2 with h | h | h
  · exact Or.inr (Or.inl h)
  · rcases le_total a.1.price b.1.price with hp | hp
    · exact Or.inl (Or.inr ⟨h, hp⟩)
    · exact Or.inr (Or.inr ⟨h.symm, hp⟩)
  · exact Or.inl (Or.inl h)

theorem nbrLE_trans : ∀ a b c : Customer × Nat, nbrLE a b → nbrLE b c → nbrLE a c := by
  intro a b c hab hbc
  simp only [nbrLE, decide_eq_true_eq] at hab hbc ⊢
  omega

theorem nbrLE_total : ∀ a b : Customer × Nat, nbrLE a b || nbrLE b a := by
  intro a b
  simp only [nbrLE, Bool.or_eq_true, decide_eq_true_eq]
  omega

theorem take_mergeSort_rankLE (rows : List (Product × Nat)) (limit : Nat) :
    ((rows.mergeSort recLE).take limit).Pairwise rankLE := by
  have h := List.sorted_mergeSort recLE_trans recLE_total rows
  have h2 := List.Pairwise.sublist (List.take_sublist limit _) h
  exact h2.imp (fun hx => by simpa [recLE] using hx)

theorem mem_take_mergeSort {α : Type} (le : α → α → Bool) {x : α} {rows : List α} {limit : Nat}
    (h : x ∈ (rows.mergeSort le).take limit) : x ∈ rows := by
  have h1 := List.take_subset limit _ h
  simpa using h1

/-! ## Properties of the grouped query rows -/

theorem mem_popularRows {g : Graph} {x : Product × Nat} (h : x ∈ popularRows g) :
    x.1 ∈ g.products ∧ x.2 = containsCount g x.1.id ∧ x.2 ≠ 0 := by
  unfold popularRows at h
  have h1 := List.mem_filter.mp h
  obtain ⟨p, hp, rfl⟩ := List.mem_map.mp h1.1
  exact ⟨hp, rfl, by simpa using h1.2⟩

/-- Pairs of (order id, product id) carried by the CONTAINS edges are
pairwise distinct: the invariant the loader's per-pair upsert maintains. -/
def pairsNodup (l : List ContainsEdge) : Prop :=
  (l.map fun e => (e.order, e.product)).Nodup

instance pairsNodupDec (l : List ContainsEdge) : Decidable (pairsNodup l) := by
  unfold pairsNodup; infer_instance

/-- The number of distinct Orders containing the product: distinct order ids
among the CONTAINS edges into it whose order node exists. -/
def distinctOrderCount (g : Graph) (pid : Nat) : Nat :=
  (((g.contains.filter fun e => decide (e.product = pid ∧ orderExists g e.order = true)).map
      (fun e => e.order)).dedup).length

theorem containsCount_eq_distinctOrderCount (g : Graph) (pid : Nat)
    (h : pairsNodup g.contains) : containsCount g pid = distinctOrderCount g pid := by
  unfold containsCount distinctOrderCount
  have hmem : ∀ x ∈ g.contains.filter
      (fun e => decide (e.product = pid ∧ orderExists g e.order = true)), x.product = pid := by
    intro x hx
    exact (decide_eq_true_eq.mp (List.mem_filter.mp hx).2).1
  have hpairs : ((g.contains.filter
      (fun e => decide (e.product = pid ∧ orderExists g e.order = true))).map
        (fun e => (e.order, e.product))).Nodup :=
    List.Nodup.sublist ((List.filter_sublist _).map _) h
  have horders : ((g.contains.filter
      (fun e => decide (e.product = pid ∧ orderExists g e.order = true))).map
        (fun e => e.order)).Nodup := by
    have heq : ((g.contains.filter
        (fun e => decide (e.product = pid ∧ orderExists g e.order = true))).map
          (fun e => e.order)) =
        (((g.contains.filter
          (fun e => decide (e.product = pid ∧ orderExists g e.order = true))).map
            (fun e => (e.order, e.product))).map Prod.fst) := by
      simp [List.map_map, Function.comp]
    rw [heq]
    refine List.Nodup.map_on ?_ hpairs
    intro p hp q hq hfst
    obtain ⟨e1, he1, rfl⟩ := List.mem_map.mp hp
    obtain ⟨e2, he2, rfl⟩ := List.mem_map.mp hq
    exact Prod.ext hfst ((hmem e1 he1).trans (hmem e2 he2).symm)
  rw [List.dedup_eq_self.mpr horders, List.length_map]

/-- The CONTAINS pairs of any graph produced by a load into the empty store
are pairwise distinct. -/
theorem etl_pairsNodup (t : Tables) : pairsNodup (etl Graph.empty t).contains := by
  rw [etl_empty_eq]
  unfold etlClosed pairsNodup
  dsimp only
  exact upsertAll_nodup_key _ _ _ (by simp)

/-- The Product node ids of any graph produced by a load into the empty
store are pairwise distinct. -/
theorem etl_products_nodup (t : Tables) : ((etl Graph.empty t).products.map Product.id).Nodup := by
  rw [etl_empty_eq]
  unfold etlClosed
  dsimp only
  exact upsertAll_nodup_key _ _ _ (by simp)

/-! ## Claim C2: reloading is idempotent except for event edges -/

/-- C2: running the load twice on the same source tables produces the same
Category, Product, Customer, and Order nodes (with identical attributes) and
the same CONTAINS, IN_CATEGORY, and PLACED edges as running it once, while
the event edges (VIEWED/CLICKED/ADDED_TO_CART/INTERACTED) are appended a
second time, so their number doubles. -/
theorem etl_reload_idempotent_except_events (t : Tables) :
    ((etl (etl Graph.empty t) t).categories = (etl Graph.empty t).categories ∧
      (etl (etl Graph.empty t) t).products = (etl Graph.empty t).products ∧
      (etl (etl Graph.empty t) t).customers = (etl Graph.empty t).customers ∧
      (etl (etl Graph.empty t) t).orders = (etl Graph.empty t).orders) ∧
    ((etl (etl Graph.empty t) t).inCategory = (etl Graph.empty t).inCategory ∧
      (etl (etl Graph.empty t) t).placed = (etl Graph.empty t).placed ∧
      (etl (etl Graph.empty t) t).contains = (etl Graph.empty t).contains) ∧
    (etl (etl Graph.empty t) t).events = (etl Graph.empty t).events ++ (etl Graph.empty t).events ∧
    (etl (etl Graph.empty t) t).events.length = 2 * (etl Graph.empty t).events.length := by
  have h := etl_twice t
  rw [h]
  refine ⟨⟨rfl, rfl, rfl, rfl⟩, ⟨rfl, rfl, rfl⟩, rfl, ?_⟩
  simp [List.length_append, Nat.two_mul]

/-! ## Concrete fixture graphs -/

/-- The fixture of the popular-products acceptance test: three products with
order counts 5, 5, 2 and prices 10, 20, 5. -/
def exPopular : Graph :=
  { categories := []
    products := [⟨1, "A", 10⟩, ⟨2, "B", 20⟩, ⟨3, "C", 5⟩]
    customers := []
    orders := [⟨1, "t"⟩, ⟨2, "t"⟩, ⟨3, "t"⟩, ⟨4, "t"⟩, ⟨5, "t"⟩, ⟨6, "t"⟩, ⟨7, "t"⟩]
    inCategory := []
    placed := []
    contains := [⟨1, 1, 1⟩, ⟨2, 1, 1⟩, ⟨3, 1, 1⟩, ⟨4, 1, 1⟩, ⟨5, 1, 1⟩,
      ⟨1, 2, 1⟩, ⟨2, 2, 1⟩, ⟨3, 2, 1⟩, ⟨4, 2, 1⟩, ⟨5, 2, 1⟩, ⟨6, 3, 1⟩, ⟨7, 3, 1⟩]
    events := [] }

/-- The fixture of the collaborative-filtering acceptance test: customer A
purchased P1; B purchased P1 and P2; C purchased P1 and P3. -/
def exCollab : Graph :=
  { categories := []
    products := [⟨1, "P1", 1⟩, ⟨2, "P2", 2⟩, ⟨3, "P3", 3⟩]
    customers := [⟨1, "A", "d"⟩, ⟨2, "B", "d"⟩, ⟨3, "C", "d"⟩]
    orders := [⟨1, "t"⟩, ⟨2, "t"⟩, ⟨3, "t"⟩]
    inCategory := []
    placed := [⟨1, 1⟩, ⟨2, 2⟩, ⟨3, 3⟩]
    contains := [⟨1, 1, 1⟩, ⟨2, 1, 1⟩, ⟨2, 2, 1⟩, ⟨3, 1, 1⟩, ⟨3, 3, 1⟩]
    events := [] }

/-- A fixture with one category holding products 1, 2, 3 where only product
2 is contained in an order, so the content-based query for product 1 reports
product 3 with popularity 0. -/
def exContent : Graph :=
  { categories := [⟨1, "cat"⟩]
    products := [⟨1, "P1", 1⟩, ⟨2, "P2", 2⟩, ⟨3, "P3", 3⟩]
    customers := []
    orders := [⟨1, "t"⟩]
    inCategory := [⟨1, 1⟩, ⟨2, 1⟩, ⟨3, 1⟩]
    placed := []
    contains := [⟨1, 2, 1⟩]
    events := [] }

/-! ## Claims C3, C9, C10, C4: the ranked queries -/

theorem length_take_le' {α : Type} (l : List α) (n : Nat) : (l.take n).length ≤ n := by
  rw [List.length_take]
  exact min_le_left _ _

theorem take_mergeSort_nbrLE (rows : List (Customer × Nat)) (n : Nat) :
    ((rows.mergeSort nbrLE).take n).Pairwise (fun a b => b.2 ≤ a.2) := by
  have h := List.sorted_mergeSort nbrLE_trans nbrLE_total rows
  have h2 := List.Pairwise.sublist (List.take_sublist n _) h
  exact h2.imp (fun hx => by simpa [nbrLE] using hx)

/-- C3: for every graph whose CONTAINS pairs are distinct (the invariant the
loader maintains; the second conjunct restates the property for every graph
produced by a load into the empty store) and every limit, the
popular-products query returns at most `limit` products, ranked by the
number of distinct Orders containing each product, descending, ties broken
by price ascending; and on the fixture with order counts 5, 5, 2 and prices
10, 20, 5, `limit = 2` returns the two count-5 products with the price-10
product before the price-20 product. -/
theorem popular_products_ranked :
    (∀ (g : Graph) (limit : Nat), pairsNodup g.contains →
      (popular_products g limit).length ≤ limit ∧
      (popular_products g limit).Pairwise rankLE ∧
      ∀ x ∈ popular_products g limit, x.2 = distinctOrderCount g x.1.id) ∧
    (∀ (t : Tables) (limit : Nat),
      (popular_products (etl Graph.empty t) limit).length ≤ limit ∧
      (popular_products (etl Graph.empty t) limit).Pairwise rankLE ∧
      ∀ x ∈ popular_products (etl Graph.empty t) limit,
        x.2 = distinctOrderCount (etl Graph.empty t) x.1.id) ∧
    popular_products exPopular 2 = [(⟨1, "A", 10⟩, 5), (⟨2, "B", 20⟩, 5)] := by
  have hmain : ∀ (g : Graph) (limit : Nat), pairsNodup g.contains →
      (popular_products g limit).length ≤ limit ∧
      (popular_products g limit).Pairwise rankLE ∧
      ∀ x ∈ popular_products g limit, x.2 = distinctOrderCount g x.1.id := by
    intro g limit h
    refine ⟨length_take_le' _ _, take_mergeSort_rankLE _ _, ?_⟩
    intro x hx
    have hp := mem_popularRows (mem_take_mergeSort recLE hx)
    rw [hp.2.1]
    exact containsCount_eq_distinctOrderCount g _ h
  refine ⟨hmain, fun t limit => hmain _ limit (etl_pairsNodup t), ?_⟩
  unfold popular_products
  have hrows : popularRows exPopular =
      [(⟨1, "A", 10⟩, 5), (⟨2, "B", 20⟩, 5), (⟨3, "C", 5⟩, 2)] := by decide
  rw [hrows, List.mergeSort_of_sorted (by decide)]
  rfl

theorem popular_products_ranked_witness :
    (popular_products exPopular 2).length ≤ 2 ∧
    ((⟨1, "A", (10 : Rat)⟩, 5) : Product × Nat).2 = distinctOrderCount exPopular 1 := by
  have h := popular_products_ranked.1 exPopular 2 (by decide)
  refine ⟨h.1, ?_⟩
  have hmem : ((⟨1, "A", (10 : Rat)⟩, 5) : Product × Nat) ∈ popular_products exPopular 2 := by
    rw [popular_products_ranked.2.2]
    decide
  exact h.2.2 _ hmem

/-- C9: for every graph and every non-negative limit, each of the four
ranked queries returns at most `limit` records, and `limit = 0` is accepted
and yields the empty list rather than an error. -/
theorem limit_bounds_ranked_queries :
    (∀ (g : Graph) (limit cid pid : Nat),
      (popular_products g limit).length ≤ limit ∧
      (content_based_recommendations g pid limit).length ≤ limit ∧
      (co_purchase_recommendations g pid limit).length ≤ limit ∧
      (collaborative_recommendations g cid limit).length ≤ limit) ∧
    (∀ (g : Graph) (cid pid : Nat),
      popular_products g 0 = [] ∧
      content_based_recommendations g pid 0 = [] ∧
      co_purchase_recommendations g pid 0 = [] ∧
      collaborative_recommendations g cid 0 = []) := by
  constructor
  · intro g limit cid pid
    exact ⟨length_take_le' _ _, length_take_le' _ _, length_take_le' _ _, length_take_le' _ _⟩
  · intro g cid pid
    exact ⟨rfl, rfl, rfl, rfl⟩

theorem mem_contentRows {g : Graph} {pid : Nat} {x : Product × Nat} (h : x ∈ contentRows g pid) :
    x.1 ∈ g.products ∧ x.1.id ≠ pid ∧ x.2 = sharedCatPairs g pid x.1.id * containsCount g x.1.id := by
  unfold contentRows at h
  by_cases hex : productExists g pid = true
  · rw [if_pos hex] at h
    obtain ⟨rec, hrec, rfl⟩ := List.mem_map.mp h
    have h1 := List.mem_filter.mp hrec
    exact ⟨h1.1, (decide_eq_true_eq.mp h1.2).1, rfl⟩
  · rw [if_neg hex] at h
    cases h

/-- C10: the popular-products query never returns a product contained in
zero orders (each returned record has order count at least 1), whereas the
content-based query does report same-category candidates with zero orders,
giving them popularity 0 — stated generally for the grouped rows and shown
on a concrete fixture where the zero-order candidate appears in the output
with popularity 0. -/
theorem popular_positive_content_zero :
    (∀ (g : Graph) (limit : Nat), ∀ x ∈ popular_products g limit, 1 ≤ x.2) ∧
    (∀ (g : Graph) (pid : Nat) (rec : Product),
      productExists g pid = true → rec ∈ g.products → rec.id ≠ pid →
      0 < sharedCatPairs g pid rec.id → containsCount g rec.id = 0 →
      (rec, 0) ∈ contentRows g pid) ∧
    content_based_recommendations exContent 1 5 = [(⟨2, "P2", 2⟩, 1), (⟨3, "P3", 3⟩, 0)] := by
  refine ⟨?_, ?_, ?_⟩
  · intro g limit x hx
    have hp := mem_popularRows (mem_take_mergeSort recLE hx)
    exact Nat.pos_of_ne_zero hp.2.2
  · intro g pid rec hex hmem hne hpos hzero
    unfold contentRows
    rw [if_pos hex]
    refine List.mem_map.mpr ⟨rec, List.mem_filter.mpr ⟨hmem, ?_⟩, ?_⟩
    · exact decide_eq_true_eq.mpr ⟨hne, hpos⟩
    · rw [hzero, Nat.mul_zero]
  · unfold content_based_recommendations
    have hrows : contentRows exContent 1 = [(⟨2, "P2", 2⟩, 1), (⟨3, "P3", 3⟩, 0)] := by decide
    rw [hrows, List.mergeSort_of_sorted (by decide)]
    rfl

theorem popular_positive_content_zero_witness :
    ((⟨3, "P3", (3 : Rat)⟩, 0) : Product × Nat) ∈ contentRows exContent 1 ∧
    (1 : Nat) ≤ 5 := by
  refine ⟨popular_positive_content_zero.2.1 exContent 1 ⟨3, "P3", 3⟩
    (by decide) (by decide) (by decide) (by decide) (by decide), by decide⟩

theorem mem_collabRows {g : Graph} {cid : Nat} {x : Product × Nat} (h : x ∈ collabRows g cid) :
    x.1 ∈ g.products ∧ x.1 ∉ customerProducts g cid ∧
    x.2 = collabPopularity g (neighbors g cid) x.1.id ∧ 1 ≤ x.2 := by
  unfold collabRows at h
  obtain ⟨rec, hrec, rfl⟩ := List.mem_map.mp h
  have h1 := List.mem_filter.mp hrec
  have h2 := decide_eq_true_eq.mp h1.2
  refine ⟨h1.1, h2.1, rfl, ?_⟩
  obtain ⟨n, hn, hpn⟩ := h2.2
  have hmem : n ∈ ((neighbors g cid).filter
      (fun m => decide (purchasedBy g m.id rec.id))).dedup :=
    List.mem_dedup.mpr (List.mem_filter.mpr ⟨hn, decide_eq_true_eq.mpr hpn⟩)
  exact List.length_pos.mpr (List.ne_nil_of_mem hmem)

/-- C4: for every customer id and limit, the collaborative query returns at
most `limit` candidates ranked by neighbor popularity descending with ties
broken by price ascending; every returned candidate lies outside the
customer's own purchased-product set, its score is the number of distinct
neighbors who purchased it, and that score is at least 1; the neighbor stage
keeps at most 10 customers, ranked by overlap count descending, and the
10-candidate cutoff is the hard-coded constant of the query, not a
parameter.  On the fixture where A purchased P1, B purchased P1 and P2, and
C purchased P1 and P3, querying for A with `limit = 5` returns P2 and P3,
each with popularity 1, excluding P1. -/
theorem collaborative_ranked :
    (∀ (g : Graph) (cid limit : Nat),
      (collaborative_recommendations g cid limit).length ≤ limit ∧
      (collaborative_recommendations g cid limit).Pairwise rankLE ∧
      (∀ x ∈ collaborative_recommendations g cid limit,
        x.1 ∉ customerProducts g cid ∧
        x.2 = collabPopularity g (neighbors g cid) x.1.id ∧ 1 ≤ x.2) ∧
      (neighbors g cid).length ≤ 10 ∧
      (((neighborRows g cid).mergeSort nbrLE).take 10).Pairwise (fun a b => b.2 ≤ a.2) ∧
      neighbors g cid = (((neighborRows g cid).mergeSort nbrLE).take 10).map Prod.fst) ∧
    collaborative_recommendations exCollab 1 5 = [(⟨2, "P2", 2⟩, 1), (⟨3, "P3", 3⟩, 1)] := by
  constructor
  · intro g cid limit
    refine ⟨length_take_le' _ _, take_mergeSort_rankLE _ _, ?_, ?_, take_mergeSort_nbrLE _ _, rfl⟩
    · intro x hx
      have h := mem_collabRows (mem_take_mergeSort recLE hx)
      exact ⟨h.2.1, h.2.2.1, h.2.2.2⟩
    · unfold neighbors
      rw [List.length_map]
      exact length_take_le' _ _
  · unfold collaborative_recommendations
    have hnr : neighborRows exCollab 1 = [(⟨2, "B", "d"⟩, 1), (⟨3, "C", "d"⟩, 1)] := by decide
    have hnb : neighbors exCollab 1 = [⟨2, "B", "d"⟩, ⟨3, "C", "d"⟩] := by
      unfold neighbors
      rw [hnr, List.mergeSort_of_sorted (by decide)]
      rfl
    have hrows : collabRows exCollab 1 = [(⟨2, "P2", 2⟩, 1), (⟨3, "P3", 3⟩, 1)] := by
      unfold collabRows
      simp only [hnb]
      decide
    rw [hrows, List.mergeSort_of_sorted (by decide)]
    rfl

theorem collaborative_ranked_witness :
    ((⟨2, "P2", (2 : Rat)⟩, 1) : Product × Nat).1 ∉ customerProducts exCollab 1 ∧
    (collaborative_recommendations exCollab 1 5).length ≤ 5 := by
  have h := collaborative_ranked.1 exCollab 1 5
  have hmem : ((⟨2, "P2", (2 : Rat)⟩, 1) : Product × Nat) ∈
      collaborative_recommendations exCollab 1 5 := by
    rw [collaborative_ranked.2]
    decide
  exact ⟨(h.2.2.1 _ hmem).1, h.1⟩

/-! ## Claim C5: the customer journey counts -/

/-- Fixture for the journey acceptance test: the customer viewed products 1,
2, 3 (product 1 twice), clicked product 1, added nothing to the cart, and
purchased products 1 and 2 — product 1 counts in views, clicks, and
purchases at once. -/
def exJourney : Graph :=
  { categories := []
    products := [⟨1, "P1", 1⟩, ⟨2, "P2", 2⟩, ⟨3, "P3", 3⟩, ⟨4, "P4", 4⟩]
    customers := [⟨1, "A", "d"⟩]
    orders := [⟨1, "t"⟩]
    inCategory := []
    placed := [⟨1, 1⟩]
    contains := [⟨1, 1, 1⟩, ⟨1, 2, 1⟩]
    events := [⟨.VIEWED, 1, 1, "t", 1⟩, ⟨.VIEWED, 1, 2, "t", 2⟩, ⟨.VIEWED, 1, 3, "t", 3⟩,
      ⟨.VIEWED, 1, 1, "t", 4⟩, ⟨.CLICKED, 1, 1, "t", 5⟩] }

theorem productExists_iff (g : Graph) (i : Nat) :
    productExists g i = true ↔ ∃ p ∈ g.products, p.id = i := by
  unfold productExists hasId
  simp [List.any_eq_true]

/-- The product ids reached from the customer by one edge of the given
event type, one occurrence per edge. -/
def eventTargets (g : Graph) (cid : Nat) (t : EventType) : List Nat :=
  (g.events.filter (fun e => decide (e.relType = t ∧ e.customer = cid))).map (fun e => e.product)

/-- The product ids the customer reached via PLACED then CONTAINS, one
occurrence per CONTAINS edge reached. -/
def purchaseTargets (g : Graph) (cid : Nat) : List Nat :=
  (g.contains.filter (fun e => decide (∃ pl ∈ g.placed, pl.customer = cid ∧
      orderExists g pl.order = true ∧ e.order = pl.order))).map (fun e => e.product)

/-- The number of distinct existing products among a list of target ids:
the spec reading of a `count(DISTINCT x)` over reached product nodes. -/
def distinctExisting (g : Graph) (S : List Nat) : Nat :=
  ((S.filter (fun i => productExists g i)).dedup).length

theorem count_products_eq_dedup (g : Graph) (S : List Nat)
    (hnd : (g.products.map Product.id).Nodup) :
    (g.products.filter (fun p => decide (p.id ∈ S))).length = distinctExisting g S := by
  have h1 : ((g.products.filter (fun p => decide (p.id ∈ S))).map Product.id).Nodup :=
    List.Nodup.sublist ((List.filter_sublist _).map _) hnd
  have h2 : ((S.filter (fun i => productExists g i)).dedup).Nodup := List.nodup_dedup _
  have hiff : ∀ i, (i ∈ (g.products.filter (fun p => decide (p.id ∈ S))).map Product.id ↔
      i ∈ (S.filter (fun i => productExists g i)).dedup) := by
    intro i
    simp only [List.mem_map, List.mem_filter, List.mem_dedup, decide_eq_true_eq]
    constructor
    · rintro ⟨p, ⟨hp, hpin⟩, rfl⟩
      exact ⟨hpin, (productExists_iff g p.id).mpr ⟨p, hp, rfl⟩⟩
    · rintro ⟨hiS, hex⟩
      obtain ⟨p, hp, rfl⟩ := (productExists_iff g i).mp hex
      exact ⟨p, ⟨hp, hiS⟩, rfl⟩
  have hperm := List.perm_of_nodup_nodup_toFinset_eq h1 h2
    (Finset.ext fun i => by
      rw [List.mem_toFinset, List.mem_toFinset]
      exact hiff i)
  unfold distinctExisting
  calc (g.products.filter (fun p => decide (p.id ∈ S))).length
      = ((g.products.filter (fun p => decide (p.id ∈ S))).map Product.id).length :=
        (List.length_map _ _).symm
    _ = _ := hperm.length_eq

theorem distinctEventProducts_spec (g : Graph) (cid : Nat) (t : EventType)
    (hnd : (g.products.map Product.id).Nodup) :
    distinctEventProducts g cid t = distinctExisting g (eventTargets g cid t) := by
  unfold distinctEventProducts
  have hfc : g.products.filter
      (fun p => decide (∃ e ∈ g.events, e.relType = t ∧ e.customer = cid ∧ e.product = p.id))
      = g.products.filter (fun p => decide (p.id ∈ eventTargets g cid t)) := by
    refine List.filter_congr ?_
    intro p hp
    rw [decide_eq_decide]
    unfold eventTargets
    simp only [List.mem_map, List.mem_filter, decide_eq_true_eq]
    constructor
    · rintro ⟨e, he, h1, h2, h3⟩
      exact ⟨e, ⟨he, h1, h2⟩, h3⟩
    · rintro ⟨e, ⟨he, h1, h2⟩, h3⟩
      exact ⟨e, he, h1, h2, h3⟩
  rw [hfc]
  exact count_products_eq_dedup g _ hnd

theorem purchases_count_spec (g : Graph) (cid : Nat)
    (hnd : (g.products.map Product.id).Nodup) :
    (g.products.filter (fun p => decide (purchasedBy g cid p.id))).length
      = distinctExisting g (purchaseTargets g cid) := by
  have hfc : g.products.filter (fun p => decide (purchasedBy g cid p.id))
      = g.products.filter (fun p => decide (p.id ∈ purchaseTargets g cid)) := by
    refine List.filter_congr ?_
    intro p hp
    rw [decide_eq_decide]
    unfold purchasedBy purchaseTargets
    simp only [List.mem_map, List.mem_filter, decide_eq_true_eq]
    constructor
    · rintro ⟨pl, hpl, h1, h2, e, he, h3, h4⟩
      exact ⟨e, ⟨he, pl, hpl, h1, h2, h3⟩, h4⟩
    · rintro ⟨e, ⟨he, pl, hpl, h1, h2, h3⟩, h4⟩
      exact ⟨pl, hpl, h1, h2, e, he, h3, h4⟩
  rw [hfc]
  exact count_products_eq_dedup g _ hnd

/-- C5: for every graph with distinct product ids and every existing
customer id, the journey endpoint returns one record whose `views`,
`clicks`, `cart_additions`, and `purchases` are each the number of distinct
products reached via VIEWED, CLICKED, ADDED_TO_CART, and PLACED-then-
CONTAINS respectively, each computed independently of the others; on the
fixture with 3 distinct viewed products, 1 click, 0 cart-adds, and 2
distinct purchases (one product viewed, clicked, and purchased at once) the
record is `{views: 3, clicks: 1, cart_additions: 0, purchases: 2}`. -/
theorem customer_journey_counts :
    (∀ (g : Graph) (cid : Nat), (g.products.map Product.id).Nodup →
      customerExists g cid = true →
      ∃ r, customer_journey g cid = .ok r ∧
        r.views = distinctExisting g (eventTargets g cid .VIEWED) ∧
        r.clicks = distinctExisting g (eventTargets g cid .CLICKED) ∧
        r.cart_additions = distinctExisting g (eventTargets g cid .ADDED_TO_CART) ∧
        r.purchases = distinctExisting g (purchaseTargets g cid)) ∧
    customer_journey exJourney 1 = .ok ⟨"A", 3, 1, 0, 2⟩ := by
  constructor
  · intro g cid hnd hex
    have hne : (g.customers.filter (fun c => decide (c.id = cid))) ≠ [] := by
      unfold customerExists hasId at hex
      obtain ⟨c, hc, hcid⟩ := List.any_eq_true.mp hex
      exact List.ne_nil_of_mem (List.mem_filter.mpr ⟨hc, hcid⟩)
    unfold customer_journey journeyRows
    cases hfil : (g.customers.filter (fun c => decide (c.id = cid))) with
    | nil => exact absurd hfil hne
    | cons c rest =>
      simp only [List.map_cons]
      exact ⟨_, rfl, distinctEventProducts_spec g cid _ hnd,
        distinctEventProducts_spec g cid _ hnd, distinctEventProducts_spec g cid _ hnd,
        purchases_count_spec g cid hnd⟩
  · rfl

theorem customer_journey_counts_witness :
    (⟨"A", 3, 1, 0, 2⟩ : Journey).views
      = distinctExisting exJourney (eventTargets exJourney 1 .VIEWED) := by
  obtain ⟨r, hr, hv, h2, h3, h4⟩ := customer_journey_counts.1 exJourney 1 (by decide) (by decide)
  have heq : r = ⟨"A", 3, 1, 0, 2⟩ := by
    rw [customer_journey_counts.2] at hr
    exact (Except.ok.inj hr).symm
  rw [← heq]
  exact hv

/-! ## Claim C6: CONTAINS edges are upserted per pair, last write wins -/

theorem filter_eq_of_nodup_key {α κ : Type} [DecidableEq κ] (key : α → κ) (l : List α)
    (hnd : (l.map key).Nodup) (k : κ) :
    l.filter (fun x => decide (key x = k)) =
      (l.find? (fun x => decide (key x = k))).toList := by
  induction l with
  | nil => rfl
  | cons a t ih =>
    simp only [List.map_cons, List.nodup_cons] at hnd
    by_cases ha : key a = k
    · rw [List.filter_cons_of_pos (by simpa using ha), List.find?_cons_of_pos _ (by simpa using ha)]
      have htail : t.filter (fun x => decide (key x = k)) = [] := by
        rw [List.filter_eq_nil_iff]
        intro x hx
        simp only [decide_eq_true_eq]
        intro hxk
        exact hnd.1 (ha ▸ hxk ▸ List.mem_map_of_mem key hx)
      rw [htail]
      rfl
    · rw [List.filter_cons_of_neg (by simpa using ha), List.find?_cons_of_neg _ (by simpa using ha)]
      exact ih hnd.2

/-- C6 counterexample: loading a single order-item row into the empty graph,
where the referenced order and product nodes do not exist, creates no
CONTAINS edge at all, although the (1, 1) pair occurs in the rows — the
claimed "exactly one edge per occurring pair" fails. -/
theorem contains_last_write_cex :
    ¬ ((loadOrderItems Graph.empty [⟨1, 1, 5⟩]).contains.filter
        (fun e => decide (e.order = 1 ∧ e.product = 1))).length = 1 := by decide

/-- C6 (amended): after loading a sequence of order-item rows whose order
and product ids all exist in the graph, starting from CONTAINS edges with
pairwise-distinct (order, product) pairs, every pair occurring in the rows
has exactly one CONTAINS edge, and its quantity is the quantity of the last
loaded row for that pair; a row referencing a missing order or product is
silently skipped and produces no edge (see the counterexample). -/
theorem contains_last_write (g : Graph) (rows : List OrderItemRow)
    (hnd : pairsNodup g.contains)
    (href : ∀ r ∈ rows, orderExists g r.order_id = true ∧ productExists g r.product_id = true)
    (o p : Nat) (rlast : OrderItemRow)
    (hlast : rows.reverse.find? (fun r => decide (r.order_id = o ∧ r.product_id = p)) = some rlast) :
    ((loadOrderItems g rows).contains.filter
        (fun e => decide (e.order = o ∧ e.product = p))).map (fun e => e.quantity)
      = [rlast.quantity] := by
  rw [loadOrderItems_eq]
  dsimp only
  have hfil : rows.filter
      (fun r => hasId Order.id g.orders r.order_id && hasId Product.id g.products r.product_id)
      = rows := by
    rw [List.filter_eq_self]
    intro r hr
    have h := href r hr
    unfold orderExists at h
    unfold productExists at h
    simp [h.1, h.2]
  rw [hfil]
  have hnd' : ((upsertAll (fun e => (e.order, e.product)) g.contains
      (rows.map fun r => ⟨r.order_id, r.product_id, r.quantity⟩)).map
        (fun e => (e.order, e.product))).Nodup :=
    upsertAll_nodup_key _ _ _ hnd
  have hpred : (upsertAll (fun e => (e.order, e.product)) g.contains
        (rows.map fun r => ⟨r.order_id, r.product_id, r.quantity⟩)).filter
          (fun e => decide (e.order = o ∧ e.product = p))
      = (upsertAll (fun e => (e.order, e.product)) g.contains
          (rows.map fun r => ⟨r.order_id, r.product_id, r.quantity⟩)).filter
            (fun e => decide ((fun e => (e.order, e.product)) e = (o, p))) := by
    refine List.filter_congr ?_
    intro e he
    rw [decide_eq_decide]
    simp [Prod.ext_iff]
  rw [hpred, filter_eq_of_nodup_key _ _ hnd' (o, p), find?_upsertAll]
  have hrev : ((rows.map fun r => (⟨r.order_id, r.product_id, r.quantity⟩ : ContainsEdge)).reverse.find?
      (fun x => decide ((fun e : ContainsEdge => (e.order, e.product)) x = (o, p))))
      = some ⟨rlast.order_id, rlast.product_id, rlast.quantity⟩ := by
    rw [← List.map_reverse, List.find?_map]
    have hcomp : ((fun x => decide ((fun e : ContainsEdge => (e.order, e.product)) x = (o, p))) ∘
        (fun r : OrderItemRow => (⟨r.order_id, r.product_id, r.quantity⟩ : ContainsEdge)))
        = fun r : OrderItemRow => decide (r.order_id = o ∧ r.product_id = p) := by
      funext r
      simp [Function.comp, Prod.ext_iff]
    rw [hcomp, hlast]
    rfl
  rw [hrev]
  rfl

theorem contains_last_write_witness :
    ((loadOrderItems exJourney [⟨1, 1, 2⟩, ⟨1, 1, 5⟩]).contains.filter
        (fun e => decide (e.order = 1 ∧ e.product = 1))).map (fun e => e.quantity) = [5] :=
  contains_last_write exJourney [⟨1, 1, 2⟩, ⟨1, 1, 5⟩] (by decide) (by decide) 1 1 ⟨1, 1, 5⟩
    (by decide)

/-! ## Claim C7: the event-type mapping and the created edge -/

/-- C7: the relationship type of a created event edge is determined solely
by the event_type string through the fixed mapping view → VIEWED, click →
CLICKED, add_to_cart → ADDED_TO_CART, and every other string maps to
INTERACTED; when the endpoints exist, exactly one new edge is appended,
carrying the event's timestamp and the event row's own id. -/
theorem event_type_mapping :
    mapEventType "view" = .VIEWED ∧
    mapEventType "click" = .CLICKED ∧
    mapEventType "add_to_cart" = .ADDED_TO_CART ∧
    (∀ s : String, s ≠ "view" → s ≠ "click" → s ≠ "add_to_cart" →
      mapEventType s = .INTERACTED) ∧
    (∀ (g : Graph) (r : EventRow),
      customerExists g r.customer_id = true → productExists g r.product_id = true →
      (loadEvent g r).events =
        g.events ++ [⟨mapEventType r.event_type, r.customer_id, r.product_id, r.ts, r.id⟩]) := by
  refine ⟨rfl, rfl, rfl, ?_, ?_⟩
  · intro s h1 h2 h3
    unfold mapEventType
    rw [if_neg h1, if_neg h2, if_neg h3]
  · intro g r hc hp
    unfold loadEvent
    rw [if_pos (by rw [hc, hp]; rfl)]

theorem event_type_mapping_witness :
    mapEventType "purchase" = .INTERACTED ∧
    (loadEvent exJourney ⟨9, 1, 2, "purchase", "t"⟩).events =
      exJourney.events ++ [⟨.INTERACTED, 1, 2, "t", 9⟩] := by
  refine ⟨event_type_mapping.2.2.2.1 "purchase" (by decide) (by decide) (by decide), ?_⟩
  exact event_type_mapping.2.2.2.2 exJourney ⟨9, 1, 2, "purchase", "t"⟩ (by decide) (by decide)

/-! ## Claim C8: the stats query -/

/-- C8 counterexample: on the empty graph the stats query yields no record
at all — after the first aggregation the `MATCH (p:Product)` stage has zero
rows and the grouped aggregation propagates emptiness — so the endpoint's
single-record extraction raises instead of returning one record with the
five counts. -/
theorem get_stats_cex : get_stats Graph.empty = .error noRecordError := rfl

/-- C8 (amended): for every graph with at least one Product, one Order, one
Category, and one relationship, the stats query returns exactly one record
with the number of Customer, Product, Order, and Category nodes and of all
relationships of any type; when any of those four counts is zero the chained
grouped aggregations yield zero records and the endpoint raises (the
customer count alone may be zero, its aggregation having no grouping
key). -/
theorem get_stats_single_record (g : Graph)
    (hp : g.products.length ≠ 0) (ho : g.orders.length ≠ 0)
    (hc : g.categories.length ≠ 0) (hr : relationshipCount g ≠ 0) :
    statsRows g = [⟨g.customers.length, g.products.length, g.orders.length,
        g.categories.length, relationshipCount g⟩] ∧
    get_stats g = .ok ⟨g.customers.length, g.products.length, g.orders.length,
        g.categories.length, relationshipCount g⟩ := by
  have hrows : statsRows g = [⟨g.customers.length, g.products.length, g.orders.length,
      g.categories.length, relationshipCount g⟩] := by
    unfold statsRows
    rw [if_neg hp, if_neg ho, if_neg hc, if_neg hr]
  refine ⟨hrows, ?_⟩
  unfold get_stats
  rw [hrows]

theorem get_stats_single_record_witness : get_stats exContent = .ok ⟨0, 3, 1, 1, 4⟩ :=
  (get_stats_single_record exContent (by decide) (by decide) (by decide) (by decide)).2

/-! ## Claim C1: behavior on unknown ids -/

/-- C1 counterexample: for a customer id with no node in the graph, the
customer-journey endpoint raises — the traversal yields an empty record set
and `dict(result.single())` fails on the missing record — rather than
returning an empty result set to the caller. -/
theorem unknown_id_journey_cex : customer_journey exCollab 99 = .error noRecordError := rfl

/-- C1 (amended): for an id that identifies no node, the collaborative,
content-based, and co-purchase queries return the empty list (the popular
query takes no id); the customer-journey traversal also produces an empty
record set, but the endpoint then fails to extract a single record from it
and raises instead of returning the empty result. -/
theorem unknown_id_behavior (g : Graph) (cid pid limit : Nat)
    (hc : customerExists g cid = false) (hp : productExists g pid = false) :
    collaborative_recommendations g cid limit = [] ∧
    content_based_recommendations g pid limit = [] ∧
    co_purchase_recommendations g pid limit = [] ∧
    journeyRows g cid = [] ∧
    customer_journey g cid = .error noRecordError := by
  have hcps : customerProducts g cid = [] := by
    unfold customerProducts
    rw [if_neg (by simp [hc])]
  have hnr : neighborRows g cid = [] := by
    unfold neighborRows
    rw [hcps]
    have hflt : g.customers.filter
        (fun other => decide (other.id ≠ cid ∧ 0 < overlapCount g [] other.id)) = [] := by
      rw [List.filter_eq_nil_iff]
      intro c hcm
      simp [overlapCount]
    rw [hflt]
    rfl
  have hnb : neighbors g cid = [] := by
    unfold neighbors
    rw [hnr, List.mergeSort_nil]
    rfl
  have hcr : collabRows g cid = [] := by
    unfold collabRows
    rw [hnb]
    have hflt : g.products.filter (fun rec => decide (rec ∉ customerProducts g cid ∧
        ∃ n ∈ ([] : List Customer), purchasedBy g n.id rec.id)) = [] := by
      rw [List.filter_eq_nil_iff]
      intro x hx
      simp
    rw [hflt]
    rfl
  have hjr : journeyRows g cid = [] := by
    unfold journeyRows
    have hflt : g.customers.filter (fun c => decide (c.id = cid)) = [] := by
      rw [List.filter_eq_nil_iff]
      intro c hcm
      simp only [decide_eq_true_eq]
      intro heq
      have hex : customerExists g cid = true := by
        unfold customerExists hasId
        exact List.any_eq_true.mpr ⟨c, hcm, by simp [heq]⟩
      rw [hc] at hex
      cases hex
    rw [hflt]
    rfl
  refine ⟨?_, ?_, ?_, hjr, ?_⟩
  · unfold collaborative_recommendations
    rw [hcr, List.mergeSort_nil, List.take_nil]
  · unfold content_based_recommendations contentRows
    rw [if_neg (by simp [hp]), List.mergeSort_nil, List.take_nil]
  · unfold co_purchase_recommendations coPurchaseRows
    rw [if_neg (by simp [hp]), List.mergeSort_nil, List.take_nil]
  · unfold customer_journey
    rw [hjr]

theorem unknown_id_behavior_witness :
    collaborative_recommendations exCollab 99 5 = [] ∧
    customer_journey exCollab 42 = .error noRecordError := by
  have h1 := unknown_id_behavior exCollab 99 99 5 (by decide) (by decide)
  have h2 := unknown_id_behavior exCollab 42 42 5 (by decide) (by decide)
  exact ⟨h1.1, h2.2.2.2.2⟩

end GraphTD
